import Mathlib

/-!
Verification of the `chrono-utils` calendar transition engine
(`src/naive/mod.rs`): a shallow embedding of the `DateTransitions`
implementation for chrono's `NaiveDate`, together with proofs of the
spec's claims about it.

The date value type itself is an external collaborator (chrono's
`NaiveDate`); the spec treats it as an opaque validated triple
`(year, month, day)` with a fallible constructor, field accessors, a
weekday accessor, and checked day-offset arithmetic. We model it here
as such a triple, with the proleptic-Gregorian validity rule and the
representable year range of chrono 0.4 (`MIN_YEAR = -262144`,
`MAX_YEAR = 262143`).
-/

namespace ChronoUtils

/-- Modelled from the spec: the collaborator's minimum representable year
(chrono's `naive::MIN_DATE` has year `i32::MIN >> 13 = -262144`). -/
def MIN_YEAR : Int := -262144

/-- Modelled from the spec: the collaborator's maximum representable year
(chrono's `naive::MAX_DATE` has year `i32::MAX >> 13 = 262143`). -/
def MAX_YEAR : Int := 262143

/-- Modelled from the spec: the proleptic-Gregorian leap rule used by the
collaborator's validity check (a year is leap iff divisible by 4, except
century years unless divisible by 400). -/
def gregorianLeap (y : Int) : Bool :=
  y % 4 == 0 && (y % 100 != 0 || y % 400 == 0)

/-- Modelled from the spec: the number of days of month `m` of year `y`
in the proleptic Gregorian calendar (0 for an invalid month number). -/
def daysInMonth (y : Int) (m : Nat) : Nat :=
  match m with
  | 1 => 31
  | 2 => if gregorianLeap y then 29 else 28
  | 3 => 31
  | 4 => 30
  | 5 => 31
  | 6 => 30
  | 7 => 31
  | 8 => 31
  | 9 => 30
  | 10 => 31
  | 11 => 30
  | 12 => 31
  | _ => 0

/-- Modelled from the spec: the collaborator's calendar date value, a
`(year, month, day)` triple. Only triples satisfying `NaiveDate.Valid`
are produced by the fallible constructor. -/
structure NaiveDate where
  year : Int
  month : Nat
  day : Nat
deriving DecidableEq, Repr

/-- Modelled from the spec: validity of a `(year, month, day)` triple —
the month is 1–12, the day fits the month, and the year is within the
representable range. -/
def NaiveDate.Valid (dt : NaiveDate) : Prop :=
  MIN_YEAR ≤ dt.year ∧ dt.year ≤ MAX_YEAR ∧
  1 ≤ dt.month ∧ dt.month ≤ 12 ∧
  1 ≤ dt.day ∧ dt.day ≤ daysInMonth dt.year dt.month

instance (dt : NaiveDate) : Decidable dt.Valid := by
  unfold NaiveDate.Valid
  exact inferInstance

instance {e a : Type} [DecidableEq e] [DecidableEq a] : DecidableEq (Except e a) := fun x y =>
  match x, y with
  | .error u, .error v =>
    if h : u = v then .isTrue (by rw [h]) else .isFalse (fun c => h (Except.error.inj c))
  | .error _, .ok _ => .isFalse (fun c => Except.noConfusion c)
  | .ok _, .error _ => .isFalse (fun c => Except.noConfusion c)
  | .ok u, .ok v =>
    if h : u = v then .isTrue (by rw [h]) else .isFalse (fun c => h (Except.ok.inj c))

/-- Modelled from the spec: the collaborator's fallible constructor
(`NaiveDate::from_ymd_opt`): `some` exactly when the triple is a valid
date within the representable range. -/
def from_ymd_opt (y : Int) (m d : Nat) : Option NaiveDate :=
  if NaiveDate.Valid ⟨y, m, d⟩ then some ⟨y, m, d⟩ else none

/-- Modelled from the spec: the collaborator's `with_day`, which keeps
the year and month and replaces the day, validating the result. -/
def NaiveDate.with_day (dt : NaiveDate) (d : Nat) : Option NaiveDate :=
  from_ymd_opt dt.year dt.month d

/-- Day number of a date (days since 1970-01-01, proleptic Gregorian),
used to define the weekday accessor and to state day-offset facts.
Standard civil-calendar formula with the year shifted so March is the
first month; `/` is Euclidean division, which is floor division for the
positive literal divisors used here. -/
def toRd (dt : NaiveDate) : Int :=
  let y' : Int := if dt.month ≤ 2 then dt.year - 1 else dt.year
  let mp : Int := if dt.month ≤ 2 then (dt.month : Int) + 9 else (dt.month : Int) - 3
  365 * y' + y' / 4 - y' / 100 + y' / 400 + (153 * mp + 2) / 5 + (dt.day : Int) - 1 - 719468

/-- Modelled from the spec: the collaborator's weekday accessor
`weekday().num_days_from_monday()` — the number of days since Monday of
the date's weekday (Monday = 0 … Sunday = 6). 1970-01-01 (day number 0)
was a Thursday, hence the offset 3. -/
def num_days_from_monday (dt : NaiveDate) : Nat :=
  ((toRd dt + 3) % 7).toNat

/-- Modelled from the spec: the calendar successor of a date, absent when
the date is the maximum representable date. -/
def succDay (dt : NaiveDate) : Option NaiveDate :=
  if dt.day < daysInMonth dt.year dt.month then some ⟨dt.year, dt.month, dt.day + 1⟩
  else if dt.month < 12 then some ⟨dt.year, dt.month + 1, 1⟩
  else if dt.year < MAX_YEAR then some ⟨dt.year + 1, 1, 1⟩
  else none

/-- Modelled from the spec: the calendar predecessor of a date, absent
when the date is the minimum representable date. -/
def predDay (dt : NaiveDate) : Option NaiveDate :=
  if 1 < dt.day then some ⟨dt.year, dt.month, dt.day - 1⟩
  else if 1 < dt.month then some ⟨dt.year, dt.month - 1, daysInMonth dt.year (dt.month - 1)⟩
  else if MIN_YEAR < dt.year then some ⟨dt.year - 1, 12, 31⟩
  else none

/-- Modelled from the spec: the collaborator's checked addition of a
(nonnegative) day count (`checked_add_signed` with a day duration):
absent exactly when the result would leave the representable range. -/
def checkedAddDays (dt : NaiveDate) : Nat → Option NaiveDate
  | 0 => some dt
  | n + 1 => (succDay dt).bind (fun d2 => checkedAddDays d2 n)

/-- Modelled from the spec: the collaborator's checked subtraction of a
(nonnegative) day count (`checked_sub_signed` with a day duration). -/
def checkedSubDays (dt : NaiveDate) : Nat → Option NaiveDate
  | 0 => some dt
  | n + 1 => (predDay dt).bind (fun d2 => checkedSubDays d2 n)

/-- Modelled from the spec: the collaborator's `Add<Duration>` operator
(`date + Duration::days(n)`), which aborts (panics) instead of returning
an absent value when the result leaves the representable range; the
abort is modelled as `Except.error ()`. -/
def addDaysAborting (dt : NaiveDate) (n : Nat) : Except Unit NaiveDate :=
  match checkedAddDays dt n with
  | some r => .ok r
  | none => .error ()

/-- Modelled from the spec: the collaborator's `Sub<Duration>` operator
(`date - Duration::days(n)`), which aborts (panics) on leaving the
representable range; the abort is modelled as `Except.error ()`. -/
def subDaysAborting (dt : NaiveDate) (n : Nat) : Except Unit NaiveDate :=
  match checkedSubDays dt n with
  | some r => .ok r
  | none => .error ()

/-- `MONTH_MIN_DAYS` table from `src/naive/mod.rs`: value at index `i`
is the minimum number of days in month `i+1`. -/
def MONTH_MIN_DAYS : List Nat := [31, 28, 31, 30, 31, 30, 31, 31, 30, 31, 30, 31]

/-- `MONTH_MAX_DAYS` table from `src/naive/mod.rs`: value at index `i`
is the maximum number of days in month `i+1`. -/
def MONTH_MAX_DAYS : List Nat := [31, 29, 31, 30, 31, 30, 31, 31, 30, 31, 30, 31]

/-- `is_leap_year` from `src/naive/mod.rs`: probes whether February 29
of the date's year constructs successfully. -/
def is_leap_year (dt : NaiveDate) : Bool :=
  (from_ymd_opt dt.year 2 29).isSome

/-- `last_day_of_month` from `src/naive/mod.rs`: index `month - 1` into
the max-days table when the year is leap, else the min-days table. -/
def last_day_of_month (dt : NaiveDate) : Nat :=
  let index := dt.month - 1
  if is_leap_year dt then MONTH_MAX_DAYS.getD index 0 else MONTH_MIN_DAYS.getD index 0

/-- `start_of_year` from `src/naive/mod.rs`. -/
def start_of_year (dt : NaiveDate) : Option NaiveDate :=
  from_ymd_opt dt.year 1 1

/-- `end_of_year` from `src/naive/mod.rs`. -/
def end_of_year (dt : NaiveDate) : Option NaiveDate :=
  from_ymd_opt dt.year 12 31

/-- `start_of_month` from `src/naive/mod.rs`. -/
def start_of_month (dt : NaiveDate) : Option NaiveDate :=
  dt.with_day 1

/-- `end_of_month` from `src/naive/mod.rs`. -/
def end_of_month (dt : NaiveDate) : Option NaiveDate :=
  dt.with_day (last_day_of_month dt)

/-- `start_of_iso8601_week` from `src/naive/mod.rs`: subtract the number
of days since Monday, with checked subtraction. -/
def start_of_iso8601_week (dt : NaiveDate) : Option NaiveDate :=
  checkedSubDays dt (num_days_from_monday dt)

/-- `end_of_iso8601_week` from `src/naive/mod.rs`: add `6 - days since
Monday`, with checked addition. -/
def end_of_iso8601_week (dt : NaiveDate) : Option NaiveDate :=
  checkedAddDays dt (6 - num_days_from_monday dt)

/-- `start_of_pred_year` from `src/naive/mod.rs`. -/
def start_of_pred_year (dt : NaiveDate) : Option NaiveDate :=
  from_ymd_opt (dt.year - 1) 1 1

/-- `end_of_pred_year` from `src/naive/mod.rs`. -/
def end_of_pred_year (dt : NaiveDate) : Option NaiveDate :=
  from_ymd_opt (dt.year - 1) 12 31

/-- `start_of_pred_month` from `src/naive/mod.rs`: decrement the month,
rolling a result of 0 over to December of the previous year; day 1. -/
def start_of_pred_month (dt : NaiveDate) : Option NaiveDate :=
  let month := dt.month - 1
  if month = 0 then from_ymd_opt (dt.year - 1) 12 1
  else from_ymd_opt dt.year month 1

/-- `end_of_pred_month` from `src/naive/mod.rs`: the start of the
predecessor month with the day set to that result's own
`last_day_of_month`; absence propagates. -/
def end_of_pred_month (dt : NaiveDate) : Option NaiveDate :=
  match start_of_pred_month dt with
  | some pred_start => pred_start.with_day (last_day_of_month pred_start)
  | none => none

/-- `start_of_pred_iso8601_week` from `src/naive/mod.rs`: the current
week's start minus 7 days, via the collaborator's aborting `-`
operator. -/
def start_of_pred_iso8601_week (dt : NaiveDate) : Except Unit (Option NaiveDate) :=
  match start_of_iso8601_week dt with
  | some week_start => (subDaysAborting week_start 7).map some
  | none => .ok none

/-- `end_of_pred_iso8601_week` from `src/naive/mod.rs`: the current
week's start minus 1 day, via the aborting `-` operator. -/
def end_of_pred_iso8601_week (dt : NaiveDate) : Except Unit (Option NaiveDate) :=
  match start_of_iso8601_week dt with
  | some week_start => (subDaysAborting week_start 1).map some
  | none => .ok none

/-- `start_of_succ_year` from `src/naive/mod.rs`. -/
def start_of_succ_year (dt : NaiveDate) : Option NaiveDate :=
  from_ymd_opt (dt.year + 1) 1 1

/-- `end_of_succ_year` from `src/naive/mod.rs`. -/
def end_of_succ_year (dt : NaiveDate) : Option NaiveDate :=
  from_ymd_opt (dt.year + 1) 12 31

/-- `start_of_succ_month` from `src/naive/mod.rs`: increment the month,
rolling a result of 13 over to January of the next year; day 1. -/
def start_of_succ_month (dt : NaiveDate) : Option NaiveDate :=
  let month := dt.month + 1
  if month = 13 then from_ymd_opt (dt.year + 1) 1 1
  else from_ymd_opt dt.year month 1

/-- `end_of_succ_month` from `src/naive/mod.rs`: the start of the
successor month with the day set to that result's own
`last_day_of_month`; absence propagates. -/
def end_of_succ_month (dt : NaiveDate) : Option NaiveDate :=
  match start_of_succ_month dt with
  | some succ_start => succ_start.with_day (last_day_of_month succ_start)
  | none => none

/-- `start_of_succ_iso8601_week` from `src/naive/mod.rs`: the current
week's start plus 7 days, via the aborting `+` operator. -/
def start_of_succ_iso8601_week (dt : NaiveDate) : Except Unit (Option NaiveDate) :=
  match start_of_iso8601_week dt with
  | some week_start => (addDaysAborting week_start 7).map some
  | none => .ok none

/-- `end_of_succ_iso8601_week` from `src/naive/mod.rs`: the successor
week's start plus 6 days, via the aborting `+` operator; an abort inside
`start_of_succ_iso8601_week` propagates. -/
def end_of_succ_iso8601_week (dt : NaiveDate) : Except Unit (Option NaiveDate) :=
  match start_of_succ_iso8601_week dt with
  | .ok (some week_start) => (addDaysAborting week_start 6).map some
  | .ok none => .ok none
  | .error e => .error e

/-! ### Helper lemmas about the collaborator model -/

theorem gregorianLeap_iff (y : Int) :
    gregorianLeap y = true ↔ (y % 4 = 0 ∧ (y % 100 ≠ 0 ∨ y % 400 = 0)) := by
  simp [gregorianLeap]

theorem from_ymd_opt_pos {y : Int} {m d : Nat} (h : NaiveDate.Valid ⟨y, m, d⟩) :
    from_ymd_opt y m d = some ⟨y, m, d⟩ := by
  simp [from_ymd_opt, h]

theorem from_ymd_opt_neg {y : Int} {m d : Nat} (h : ¬ NaiveDate.Valid ⟨y, m, d⟩) :
    from_ymd_opt y m d = none := by
  simp [from_ymd_opt, h]

theorem from_ymd_opt_eq_some {y : Int} {m d : Nat} {p : NaiveDate}
    (h : from_ymd_opt y m d = some p) : p = ⟨y, m, d⟩ ∧ NaiveDate.Valid ⟨y, m, d⟩ := by
  by_cases hv : NaiveDate.Valid ⟨y, m, d⟩
  · rw [from_ymd_opt_pos hv] at h
    exact ⟨(Option.some_inj.mp h).symm, hv⟩
  · rw [from_ymd_opt_neg hv] at h
    exact absurd h (by simp)

theorem daysInMonth_ge_28 (y : Int) (m : Nat) (h1 : 1 ≤ m) (h2 : m ≤ 12) :
    28 ≤ daysInMonth y m := by
  interval_cases m <;> simp [daysInMonth] <;> split <;> omega

theorem daysInMonth_le_31 (y : Int) (m : Nat) : daysInMonth y m ≤ 31 := by
  unfold daysInMonth
  split <;> first | omega | (split <;> omega)

theorem is_leap_year_eq {dt : NaiveDate} (hv : dt.Valid) :
    is_leap_year dt = gregorianLeap dt.year := by
  have hy1 : MIN_YEAR ≤ dt.year := hv.1
  have hy2 : dt.year ≤ MAX_YEAR := hv.2.1
  by_cases hg : gregorianLeap dt.year = true
  · have hval : NaiveDate.Valid ⟨dt.year, 2, 29⟩ := by
      refine ⟨hy1, hy2, ?_, ?_, ?_, ?_⟩ <;> simp [daysInMonth, hg]
    simp [is_leap_year, from_ymd_opt_pos hval, hg]
  · have hval : ¬ NaiveDate.Valid ⟨dt.year, 2, 29⟩ := by
      rintro ⟨-, -, -, -, -, h29⟩
      simp [daysInMonth, hg] at h29
    have hg2 : gregorianLeap dt.year = false := by simpa using hg
    simp [is_leap_year, from_ymd_opt_neg hval, hg2]

theorem last_day_of_month_eq {dt : NaiveDate} (hv : dt.Valid) :
    last_day_of_month dt = daysInMonth dt.year dt.month := by
  have hleap := is_leap_year_eq hv
  obtain ⟨y, m, d⟩ := dt
  have hm1 : 1 ≤ m := hv.2.2.1
  have hm2 : m ≤ 12 := hv.2.2.2.1
  simp only [last_day_of_month, hleap]
  simp only at hleap hm1 hm2 ⊢
  cases hg : gregorianLeap y <;>
    simp only [hg, if_true, if_false, Bool.false_eq_true, Bool.true_eq_false] <;>
    interval_cases m <;>
    simp [daysInMonth, MONTH_MIN_DAYS, MONTH_MAX_DAYS, hg]

theorem ediv4_step (y : Int) : y / 4 = (y - 1) / 4 + (if y % 4 = 0 then 1 else 0) := by
  split <;> omega

theorem ediv100_step (y : Int) : y / 100 = (y - 1) / 100 + (if y % 100 = 0 then 1 else 0) := by
  split <;> omega

theorem ediv400_step (y : Int) : y / 400 = (y - 1) / 400 + (if y % 400 = 0 then 1 else 0) := by
  split <;> omega

theorem toRd_m1 (y : Int) (d : Nat) :
    toRd ⟨y, 1, d⟩ = 365 * (y - 1) + (y - 1) / 4 - (y - 1) / 100 + (y - 1) / 400 + 306 + (d : Int) - 1 - 719468 := by
  norm_num [toRd]

theorem toRd_m2 (y : Int) (d : Nat) :
    toRd ⟨y, 2, d⟩ = 365 * (y - 1) + (y - 1) / 4 - (y - 1) / 100 + (y - 1) / 400 + 337 + (d : Int) - 1 - 719468 := by
  norm_num [toRd]

theorem toRd_m3 (y : Int) (d : Nat) :
    toRd ⟨y, 3, d⟩ = 365 * y + y / 4 - y / 100 + y / 400 + 0 + (d : Int) - 1 - 719468 := by
  norm_num [toRd]

theorem toRd_m4 (y : Int) (d : Nat) :
    toRd ⟨y, 4, d⟩ = 365 * y + y / 4 - y / 100 + y / 400 + 31 + (d : Int) - 1 - 719468 := by
  norm_num [toRd]

theorem toRd_m5 (y : Int) (d : Nat) :
    toRd ⟨y, 5, d⟩ = 365 * y + y / 4 - y / 100 + y / 400 + 61 + (d : Int) - 1 - 719468 := by
  norm_num [toRd]

theorem toRd_m6 (y : Int) (d : Nat) :
    toRd ⟨y, 6, d⟩ = 365 * y + y / 4 - y / 100 + y / 400 + 92 + (d : Int) - 1 - 719468 := by
  norm_num [toRd]

theorem toRd_m7 (y : Int) (d : Nat) :
    toRd ⟨y, 7, d⟩ = 365 * y + y / 4 - y / 100 + y / 400 + 122 + (d : Int) - 1 - 719468 := by
  norm_num [toRd]

theorem toRd_m8 (y : Int) (d : Nat) :
    toRd ⟨y, 8, d⟩ = 365 * y + y / 4 - y / 100 + y / 400 + 153 + (d : Int) - 1 - 719468 := by
  norm_num [toRd]

theorem toRd_m9 (y : Int) (d : Nat) :
    toRd ⟨y, 9, d⟩ = 365 * y + y / 4 - y / 100 + y / 400 + 184 + (d : Int) - 1 - 719468 := by
  norm_num [toRd]

theorem toRd_m10 (y : Int) (d : Nat) :
    toRd ⟨y, 10, d⟩ = 365 * y + y / 4 - y / 100 + y / 400 + 214 + (d : Int) - 1 - 719468 := by
  norm_num [toRd]

theorem toRd_m11 (y : Int) (d : Nat) :
    toRd ⟨y, 11, d⟩ = 365 * y + y / 4 - y / 100 + y / 400 + 245 + (d : Int) - 1 - 719468 := by
  norm_num [toRd]

theorem toRd_m12 (y : Int) (d : Nat) :
    toRd ⟨y, 12, d⟩ = 365 * y + y / 4 - y / 100 + y / 400 + 275 + (d : Int) - 1 - 719468 := by
  norm_num [toRd]

theorem succDay_spec {dt s : NaiveDate} (hv : dt.Valid) (h : succDay dt = some s) :
    s.Valid ∧ toRd s = toRd dt + 1 := by
  obtain ⟨y, m, d⟩ := dt
  obtain ⟨hy1, hy2, hm1, hm2, hd1, hd2⟩ := hv
  simp only at hy1 hy2 hm1 hm2 hd1 hd2
  simp only [succDay] at h
  split at h
  · -- within the month: s = ⟨y, m, d + 1⟩
    rename_i hlt
    injection h with h
    subst h
    simp only [NaiveDate.Valid]
    refine ⟨⟨hy1, hy2, hm1, hm2, by omega, by omega⟩, ?_⟩
    interval_cases m <;> simp only [Nat.reduceAdd, Nat.reduceSub, toRd_m1, toRd_m2, toRd_m3, toRd_m4, toRd_m5, toRd_m6, toRd_m7, toRd_m8, toRd_m9, toRd_m10, toRd_m11, toRd_m12] <;> omega
  · split at h
    · -- month rollover within the year: s = ⟨y, m + 1, 1⟩
      rename_i hnlt hm12
      injection h with h
      subst h
      have hd : d = daysInMonth y m := by omega
      simp only [NaiveDate.Valid]
      cases hgl : gregorianLeap y <;>
      · have hmod := gregorianLeap_iff y
        rw [hgl] at hmod
        simp only [Bool.false_eq_true, false_iff, Bool.true_eq_false, true_iff] at hmod
        interval_cases m <;>
          simp [daysInMonth, hgl] at hd <;>
          subst hd <;>
          refine ⟨⟨hy1, hy2, by omega, by omega, by omega,
            by simp only [daysInMonth]; (try split) <;> omega⟩, ?_⟩ <;>
          simp only [Nat.reduceAdd, Nat.reduceSub, toRd_m1, toRd_m2, toRd_m3, toRd_m4, toRd_m5, toRd_m6, toRd_m7, toRd_m8, toRd_m9, toRd_m10, toRd_m11, toRd_m12] <;>
          (first
            | (rw [ediv4_step y, ediv100_step y, ediv400_step y]; split_ifs <;> omega)
            | omega)
    · split at h
      · -- year rollover: s = ⟨y + 1, 1, 1⟩
        rename_i hnlt hm12 hymax
        injection h with h
        subst h
        have hm : m = 12 := by omega
        subst hm
        have hd : d = 31 := by
          simp only [daysInMonth] at hnlt hd2
          omega
        subst hd
        simp only [NaiveDate.Valid]
        refine ⟨⟨by omega, by omega, by omega, by omega, by omega,
          by simp only [daysInMonth]; omega⟩, ?_⟩
        simp only [Nat.reduceAdd, Nat.reduceSub, toRd_m1, toRd_m12]
        rw [show y + 1 - 1 = y from by omega]
        first
          | (rw [ediv4_step y, ediv100_step y, ediv400_step y]; split_ifs <;> omega)
          | omega
      · exact absurd h (by simp)

theorem predDay_spec {dt s : NaiveDate} (hv : dt.Valid) (h : predDay dt = some s) :
    s.Valid ∧ toRd s = toRd dt - 1 := by
  obtain ⟨y, m, d⟩ := dt
  obtain ⟨hy1, hy2, hm1, hm2, hd1, hd2⟩ := hv
  simp only at hy1 hy2 hm1 hm2 hd1 hd2
  simp only [predDay] at h
  split at h
  · -- within the month: s = ⟨y, m, d - 1⟩
    rename_i hlt
    injection h with h
    subst h
    simp only [NaiveDate.Valid]
    refine ⟨⟨hy1, hy2, hm1, hm2, by omega, by omega⟩, ?_⟩
    interval_cases m <;> simp only [Nat.reduceAdd, Nat.reduceSub, toRd_m1, toRd_m2, toRd_m3, toRd_m4, toRd_m5, toRd_m6, toRd_m7, toRd_m8, toRd_m9, toRd_m10, toRd_m11, toRd_m12] <;> omega
  · split at h
    · -- month rollback within the year: s = ⟨y, m - 1, daysInMonth y (m - 1)⟩
      rename_i hnlt hm'
      injection h with h
      subst h
      have hd : d = 1 := by omega
      subst hd
      simp only [NaiveDate.Valid]
      cases hgl : gregorianLeap y <;>
      · have hmod := gregorianLeap_iff y
        rw [hgl] at hmod
        simp only [Bool.false_eq_true, false_iff, Bool.true_eq_false, true_iff] at hmod
        interval_cases m <;>
          simp only [Nat.reduceSub, daysInMonth, hgl, eq_self_iff_true, if_true,
            Bool.false_eq_true, Bool.true_eq_false, if_false, ite_true, ite_false] <;>
          refine ⟨⟨hy1, hy2, by omega, by omega, by omega, by omega⟩, ?_⟩ <;>
          simp only [Nat.reduceAdd, Nat.reduceSub, toRd_m1, toRd_m2, toRd_m3, toRd_m4, toRd_m5, toRd_m6, toRd_m7, toRd_m8, toRd_m9, toRd_m10, toRd_m11, toRd_m12] <;>
          (first
            | (rw [ediv4_step y, ediv100_step y, ediv400_step y]; split_ifs <;> omega)
            | omega)
    · split at h
      · -- year rollback: s = ⟨y - 1, 12, 31⟩
        rename_i hnlt hm' hymin
        injection h with h
        subst h
        have hm : m = 1 := by omega
        subst hm
        have hd : d = 1 := by omega
        subst hd
        simp only [NaiveDate.Valid]
        refine ⟨⟨by omega, by omega, by omega, by omega, by omega,
          by simp only [daysInMonth]; omega⟩, ?_⟩
        simp only [Nat.reduceAdd, Nat.reduceSub, toRd_m1, toRd_m12]
        omega
      · exact absurd h (by simp)

theorem checkedAddDays_spec {dt s : NaiveDate} {n : Nat} (hv : dt.Valid)
    (h : checkedAddDays dt n = some s) : s.Valid ∧ toRd s = toRd dt + n := by
  induction n generalizing dt with
  | zero =>
    simp only [checkedAddDays] at h
    injection h with h
    subst h
    exact ⟨hv, by simp⟩
  | succ k ih =>
    simp only [checkedAddDays] at h
    cases hs : succDay dt with
    | none => rw [hs] at h; simp at h
    | some d2 =>
      rw [hs] at h
      simp only [Option.some_bind] at h
      obtain ⟨hv2, hrd2⟩ := succDay_spec hv hs
      obtain ⟨hvs, hrds⟩ := ih hv2 h
      refine ⟨hvs, ?_⟩
      omega

theorem checkedSubDays_spec {dt s : NaiveDate} {n : Nat} (hv : dt.Valid)
    (h : checkedSubDays dt n = some s) : s.Valid ∧ toRd s = toRd dt - n := by
  induction n generalizing dt with
  | zero =>
    simp only [checkedSubDays] at h
    injection h with h
    subst h
    exact ⟨hv, by simp⟩
  | succ k ih =>
    simp only [checkedSubDays] at h
    cases hs : predDay dt with
    | none => rw [hs] at h; simp at h
    | some d2 =>
      rw [hs] at h
      simp only [Option.some_bind] at h
      obtain ⟨hv2, hrd2⟩ := predDay_spec hv hs
      obtain ⟨hvs, hrds⟩ := ih hv2 h
      refine ⟨hvs, ?_⟩
      omega

theorem num_days_from_monday_lt (dt : NaiveDate) : num_days_from_monday dt < 7 := by
  have h1 : 0 ≤ (toRd dt + 3) % 7 := Int.emod_nonneg _ (by norm_num)
  have h2 : (toRd dt + 3) % 7 < 7 := Int.emod_lt_of_pos _ (by norm_num)
  simp only [num_days_from_monday]
  omega

theorem num_days_from_monday_cast (dt : NaiveDate) :
    (num_days_from_monday dt : Int) = (toRd dt + 3) % 7 := by
  have h1 : 0 ≤ (toRd dt + 3) % 7 := Int.emod_nonneg _ (by norm_num)
  simp only [num_days_from_monday]
  exact Int.toNat_of_nonneg h1

theorem start_of_iso8601_week_spec {dt s : NaiveDate} (hv : dt.Valid)
    (h : start_of_iso8601_week dt = some s) :
    s.Valid ∧ toRd s = toRd dt - num_days_from_monday dt ∧ num_days_from_monday s = 0 := by
  obtain ⟨hvs, hrd⟩ := checkedSubDays_spec hv h
  refine ⟨hvs, hrd, ?_⟩
  have hc := num_days_from_monday_cast dt
  have hcs := num_days_from_monday_cast s
  omega

theorem end_of_iso8601_week_spec {dt e : NaiveDate} (hv : dt.Valid)
    (h : end_of_iso8601_week dt = some e) :
    e.Valid ∧ toRd e = toRd dt + ((6 - num_days_from_monday dt : Nat) : Int) ∧
      num_days_from_monday e = 6 := by
  obtain ⟨hve, hrd⟩ := checkedAddDays_spec hv h
  refine ⟨hve, hrd, ?_⟩
  have hc := num_days_from_monday_cast dt
  have hce := num_days_from_monday_cast e
  have hlt := num_days_from_monday_lt dt
  omega

theorem with_day_last_day {p : NaiveDate} (hvp : p.Valid) :
    p.with_day (last_day_of_month p) = some ⟨p.year, p.month, last_day_of_month p⟩ := by
  rw [NaiveDate.with_day]
  apply from_ymd_opt_pos
  have hge := daysInMonth_ge_28 p.year p.month hvp.2.2.1 hvp.2.2.2.1
  have heq := last_day_of_month_eq hvp
  exact ⟨hvp.1, hvp.2.1, hvp.2.2.1, hvp.2.2.2.1,
    by show 1 ≤ last_day_of_month p; omega,
    by show last_day_of_month p ≤ daysInMonth p.year p.month; omega⟩

theorem start_of_pred_month_valid {dt p : NaiveDate} (h : start_of_pred_month dt = some p) :
    p.Valid := by
  simp only [start_of_pred_month] at h
  split at h <;>
    (obtain ⟨rfl, hval⟩ := from_ymd_opt_eq_some h; exact hval)

theorem start_of_succ_month_valid {dt p : NaiveDate} (h : start_of_succ_month dt = some p) :
    p.Valid := by
  simp only [start_of_succ_month] at h
  split at h <;>
    (obtain ⟨rfl, hval⟩ := from_ymd_opt_eq_some h; exact hval)

theorem valid_mk_iff (y : Int) (m d : Nat) :
    (NaiveDate.mk y m d).Valid ↔
      (MIN_YEAR ≤ y ∧ y ≤ MAX_YEAR ∧ 1 ≤ m ∧ m ≤ 12 ∧ 1 ≤ d ∧ d ≤ daysInMonth y m) :=
  Iff.rfl

/-! ### Claim theorems -/

/-- C2: for every valid date, `is_leap_year` returns true if and only if the
date's year is divisible by 4 and either not divisible by 100 or divisible
by 400. -/
theorem c2_is_leap_year_divisibility (dt : NaiveDate) (hv : dt.Valid) :
    is_leap_year dt = true ↔ (dt.year % 4 = 0 ∧ (dt.year % 100 ≠ 0 ∨ dt.year % 400 = 0)) := by
  rw [is_leap_year_eq hv, gregorianLeap_iff]

/-- C2 witness: the theorem instantiated at 1996-08-14 and 2000-02-29 (leap)
and at 1900-02-28 and 1997-11-03 (not leap). -/
theorem c2_is_leap_year_divisibility_witness :
    is_leap_year ⟨1996, 8, 14⟩ = true ∧ is_leap_year ⟨2000, 2, 29⟩ = true ∧
    ¬ is_leap_year ⟨1900, 2, 28⟩ = true ∧ ¬ is_leap_year ⟨1997, 11, 3⟩ = true :=
  ⟨(c2_is_leap_year_divisibility ⟨1996, 8, 14⟩ (by decide)).mpr (by decide),
   (c2_is_leap_year_divisibility ⟨2000, 2, 29⟩ (by decide)).mpr (by decide),
   fun h => absurd ((c2_is_leap_year_divisibility ⟨1900, 2, 28⟩ (by decide)).mp h) (by decide),
   fun h => absurd ((c2_is_leap_year_divisibility ⟨1997, 11, 3⟩ (by decide)).mp h) (by decide)⟩

/-- C3: for every valid date, `last_day_of_month` is the entry at index
`month - 1` of the max-days table when `is_leap_year` holds and of the
min-days table otherwise; for month 2 it is 29 iff leap else 28; for every
other month both tables agree, so the result is the fixed table value
regardless of leap status. -/
theorem c3_last_day_of_month_table (dt : NaiveDate) (hv : dt.Valid) :
    last_day_of_month dt
        = (if is_leap_year dt then MONTH_MAX_DAYS else MONTH_MIN_DAYS).getD (dt.month - 1) 0
      ∧ (dt.month = 2 → last_day_of_month dt = if is_leap_year dt then 29 else 28)
      ∧ (dt.month ≠ 2 → last_day_of_month dt = MONTH_MIN_DAYS.getD (dt.month - 1) 0
          ∧ MONTH_MIN_DAYS.getD (dt.month - 1) 0 = MONTH_MAX_DAYS.getD (dt.month - 1) 0) := by
  have hm1 : 1 ≤ dt.month := hv.2.2.1
  have hm2 : dt.month ≤ 12 := hv.2.2.2.1
  obtain ⟨y, m, d⟩ := dt
  simp only at hm1 hm2
  cases hl : is_leap_year ⟨y, m, d⟩ <;>
    interval_cases m <;>
    simp [last_day_of_month, hl, MONTH_MIN_DAYS, MONTH_MAX_DAYS]

/-- C3 witness: the theorem instantiated at 1996-02-23 (February of a leap
year) and at 2000-01-01 (a 31-day month). -/
theorem c3_last_day_of_month_table_witness :
    last_day_of_month ⟨1996, 2, 23⟩ = (if is_leap_year ⟨1996, 2, 23⟩ then 29 else 28) ∧
    last_day_of_month ⟨2000, 1, 1⟩ = MONTH_MIN_DAYS.getD 0 0 :=
  ⟨(c3_last_day_of_month_table ⟨1996, 2, 23⟩ (by decide)).2.1 rfl,
   ((c3_last_day_of_month_table ⟨2000, 1, 1⟩ (by decide)).2.2 (by decide)).1⟩

/-- C10: for every valid date the index `month - 1` is within bounds of both
12-entry month tables and `last_day_of_month` lies between 28 and 31. -/
theorem c10_last_day_of_month_total (dt : NaiveDate) (hv : dt.Valid) :
    dt.month - 1 < MONTH_MIN_DAYS.length ∧ dt.month - 1 < MONTH_MAX_DAYS.length ∧
    28 ≤ last_day_of_month dt ∧ last_day_of_month dt ≤ 31 := by
  have hm1 : 1 ≤ dt.month := hv.2.2.1
  have hm2 : dt.month ≤ 12 := hv.2.2.2.1
  have heq := last_day_of_month_eq hv
  have h28 := daysInMonth_ge_28 dt.year dt.month hm1 hm2
  have h31 := daysInMonth_le_31 dt.year dt.month
  refine ⟨?_, ?_, by omega, by omega⟩ <;>
    simp [MONTH_MIN_DAYS, MONTH_MAX_DAYS] <;> omega

/-- C10 witness: the theorem instantiated at 1993-02-01. -/
theorem c10_last_day_of_month_total_witness :
    28 ≤ last_day_of_month ⟨1993, 2, 1⟩ ∧ last_day_of_month ⟨1993, 2, 1⟩ ≤ 31 :=
  ⟨(c10_last_day_of_month_total ⟨1993, 2, 1⟩ (by decide)).2.2.1,
   (c10_last_day_of_month_total ⟨1993, 2, 1⟩ (by decide)).2.2.2⟩

/-- C8: for every valid date, the current-period operations always return a
present result with the expected fields: `start_of_month` keeps year and
month with day 1, `end_of_month` keeps year and month with day
`last_day_of_month`, `start_of_year` is January 1, `end_of_year` is
December 31 of the same year. -/
theorem c8_current_period_ops_total (dt : NaiveDate) (hv : dt.Valid) :
    start_of_month dt = some ⟨dt.year, dt.month, 1⟩ ∧
    end_of_month dt = some ⟨dt.year, dt.month, last_day_of_month dt⟩ ∧
    start_of_year dt = some ⟨dt.year, 1, 1⟩ ∧
    end_of_year dt = some ⟨dt.year, 12, 31⟩ := by
  have hy1 : MIN_YEAR ≤ dt.year := hv.1
  have hy2 : dt.year ≤ MAX_YEAR := hv.2.1
  have hm1 : 1 ≤ dt.month := hv.2.2.1
  have hm2 : dt.month ≤ 12 := hv.2.2.2.1
  have hge := daysInMonth_ge_28 dt.year dt.month hm1 hm2
  refine ⟨?_, with_day_last_day hv, ?_, ?_⟩
  · exact from_ymd_opt_pos ((valid_mk_iff _ _ _).mpr
      ⟨hy1, hy2, hm1, hm2, by omega, by omega⟩)
  · exact from_ymd_opt_pos ((valid_mk_iff _ _ _).mpr
      ⟨hy1, hy2, by omega, by omega, by omega, by simp [daysInMonth]⟩)
  · exact from_ymd_opt_pos ((valid_mk_iff _ _ _).mpr
      ⟨hy1, hy2, by omega, by omega, by omega, by simp [daysInMonth]⟩)

/-- C8 witness: the theorem instantiated at 2019-09-13. -/
theorem c8_current_period_ops_total_witness :
    start_of_month ⟨2019, 9, 13⟩ = some ⟨2019, 9, 1⟩ ∧
    end_of_month ⟨2019, 9, 13⟩ = some ⟨2019, 9, last_day_of_month ⟨2019, 9, 13⟩⟩ ∧
    start_of_year ⟨2019, 9, 13⟩ = some ⟨2019, 1, 1⟩ ∧
    end_of_year ⟨2019, 9, 13⟩ = some ⟨2019, 12, 31⟩ :=
  c8_current_period_ops_total ⟨2019, 9, 13⟩ (by decide)

/-- C9: `start_of_month`, `start_of_year` and `start_of_iso8601_week` are
idempotent — whenever the operation yields a date, applying it again to
that date yields the same date. -/
theorem c9_start_ops_idempotent (dt : NaiveDate) (hv : dt.Valid) :
    (∀ p, start_of_month dt = some p → start_of_month p = some p) ∧
    (∀ p, start_of_year dt = some p → start_of_year p = some p) ∧
    (∀ p, start_of_iso8601_week dt = some p → start_of_iso8601_week p = some p) := by
  refine ⟨?_, ?_, ?_⟩
  · intro p hp
    obtain ⟨hpe, hval⟩ := from_ymd_opt_eq_some hp
    subst hpe
    exact hp
  · intro p hp
    obtain ⟨hpe, hval⟩ := from_ymd_opt_eq_some hp
    subst hpe
    exact hp
  · intro p hp
    obtain ⟨hvp, hrd, hzero⟩ := start_of_iso8601_week_spec hv hp
    show checkedSubDays p (num_days_from_monday p) = some p
    rw [hzero]
    rfl

/-- C9 witness: the theorem instantiated at 2020-01-02 (whose week start is
2019-12-30, crossing the year boundary). -/
theorem c9_start_ops_idempotent_witness :
    start_of_month ⟨2020, 1, 2⟩ = some ⟨2020, 1, 1⟩ ∧
    start_of_iso8601_week ⟨2019, 12, 30⟩ = some ⟨2019, 12, 30⟩ :=
  ⟨(c9_start_ops_idempotent ⟨2020, 1, 2⟩ (by decide)).1 ⟨2020, 1, 1⟩ (by decide),
   (c9_start_ops_idempotent ⟨2020, 1, 2⟩ (by decide)).2.2 ⟨2019, 12, 30⟩ (by decide)⟩

/-- C4 counterexample: at the valid date -262144-01-05 (January of the
minimum representable year) `start_of_pred_month` returns an absent value,
not a date with month 12 and the decremented year, because that year is
not representable. -/
theorem c4_pred_month_counterexample :
    (NaiveDate.mk (-262144) 1 5).Valid ∧ start_of_pred_month ⟨-262144, 1, 5⟩ = none := by
  decide

/-- C4 (amended): for every valid date, `start_of_pred_month` is the date
with day 1, month decremented (December of the previous year when the
month is January) whenever the rolled-over year is representable, and is
absent exactly when it is not; symmetrically `start_of_succ_month`
increments the month (January of the next year from December). -/
theorem c4_pred_succ_month_fields (dt : NaiveDate) (hv : dt.Valid) :
    (2 ≤ dt.month → start_of_pred_month dt = some ⟨dt.year, dt.month - 1, 1⟩) ∧
    (dt.month = 1 → MIN_YEAR ≤ dt.year - 1 → start_of_pred_month dt = some ⟨dt.year - 1, 12, 1⟩) ∧
    (dt.month = 1 → dt.year - 1 < MIN_YEAR → start_of_pred_month dt = none) ∧
    (dt.month ≤ 11 → start_of_succ_month dt = some ⟨dt.year, dt.month + 1, 1⟩) ∧
    (dt.month = 12 → dt.year + 1 ≤ MAX_YEAR → start_of_succ_month dt = some ⟨dt.year + 1, 1, 1⟩) ∧
    (dt.month = 12 → MAX_YEAR < dt.year + 1 → start_of_succ_month dt = none) := by
  have hy1 : MIN_YEAR ≤ dt.year := hv.1
  have hy2 : dt.year ≤ MAX_YEAR := hv.2.1
  have hm1 : 1 ≤ dt.month := hv.2.2.1
  have hm2 : dt.month ≤ 12 := hv.2.2.2.1
  refine ⟨?_, ?_, ?_, ?_, ?_, ?_⟩
  · intro h2
    have hne : ¬ (dt.month - 1 = 0) := by omega
    simp only [start_of_pred_month, if_neg hne]
    exact from_ymd_opt_pos ((valid_mk_iff _ _ _).mpr ⟨hy1, hy2, by omega, by omega, by omega,
      by have := daysInMonth_ge_28 dt.year (dt.month - 1) (by omega) (by omega); omega⟩)
  · intro h1 hmin
    simp only [start_of_pred_month, h1, Nat.reduceSub, reduceIte]
    exact from_ymd_opt_pos ((valid_mk_iff _ _ _).mpr
      ⟨hmin, by omega, by omega, by omega, by omega, by simp [daysInMonth]⟩)
  · intro h1 hmin
    simp only [start_of_pred_month, h1, Nat.reduceSub, reduceIte]
    apply from_ymd_opt_neg
    intro hval
    have h := (valid_mk_iff _ _ _).mp hval
    omega
  · intro h11
    have hne : ¬ (dt.month + 1 = 13) := by omega
    simp only [start_of_succ_month, if_neg hne]
    exact from_ymd_opt_pos ((valid_mk_iff _ _ _).mpr ⟨hy1, hy2, by omega, by omega, by omega,
      by have := daysInMonth_ge_28 dt.year (dt.month + 1) (by omega) (by omega); omega⟩)
  · intro h12 hmax
    simp only [start_of_succ_month, h12, Nat.reduceAdd, reduceIte]
    exact from_ymd_opt_pos ((valid_mk_iff _ _ _).mpr
      ⟨by omega, hmax, by omega, by omega, by omega, by simp [daysInMonth]⟩)
  · intro h12 hmax
    simp only [start_of_succ_month, h12, Nat.reduceAdd, reduceIte]
    apply from_ymd_opt_neg
    intro hval
    have h := (valid_mk_iff _ _ _).mp hval
    omega

/-- C4 witness: the theorem instantiated at 2019-01-04 (January rolls back
to December 2018) and 2019-12-12 (December rolls forward to January
2020). -/
theorem c4_pred_succ_month_fields_witness :
    start_of_pred_month ⟨2019, 1, 4⟩ = some ⟨2018, 12, 1⟩ ∧
    start_of_succ_month ⟨2019, 12, 12⟩ = some ⟨2020, 1, 1⟩ :=
  ⟨(c4_pred_succ_month_fields ⟨2019, 1, 4⟩ (by decide)).2.1 rfl (by decide),
   (c4_pred_succ_month_fields ⟨2019, 12, 12⟩ (by decide)).2.2.2.2.1 rfl (by decide)⟩

/-- C6: the predecessor/successor month end operations resolve the
corresponding month start first and set its day to that result's own
`last_day_of_month` (so the month length comes from the target month), and
propagate absence when the start is absent. -/
theorem c6_end_month_via_start (dt : NaiveDate) (hv : dt.Valid) :
    (start_of_pred_month dt = none → end_of_pred_month dt = none) ∧
    (∀ p, start_of_pred_month dt = some p →
        end_of_pred_month dt = some ⟨p.year, p.month, last_day_of_month p⟩) ∧
    (start_of_succ_month dt = none → end_of_succ_month dt = none) ∧
    (∀ p, start_of_succ_month dt = some p →
        end_of_succ_month dt = some ⟨p.year, p.month, last_day_of_month p⟩) := by
  refine ⟨?_, ?_, ?_, ?_⟩
  · intro h
    simp only [end_of_pred_month, h]
  · intro p hp
    have hvp := start_of_pred_month_valid hp
    simp only [end_of_pred_month, hp]
    exact with_day_last_day hvp
  · intro h
    simp only [end_of_succ_month, h]
  · intro p hp
    have hvp := start_of_succ_month_valid hp
    simp only [end_of_succ_month, hp]
    exact with_day_last_day hvp

/-- C6 witness: the theorem instantiated at 1996-03-01, whose predecessor
month is February of the leap year 1996, giving day 29. -/
theorem c6_end_month_via_start_witness :
    end_of_pred_month ⟨1996, 3, 1⟩ = some ⟨1996, 2, last_day_of_month ⟨1996, 2, 1⟩⟩ ∧
    end_of_succ_month ⟨1996, 3, 1⟩ = some ⟨1996, 4, last_day_of_month ⟨1996, 4, 1⟩⟩ :=
  ⟨(c6_end_month_via_start ⟨1996, 3, 1⟩ (by decide)).2.1 ⟨1996, 2, 1⟩ (by decide),
   (c6_end_month_via_start ⟨1996, 3, 1⟩ (by decide)).2.2.2 ⟨1996, 4, 1⟩ (by decide)⟩

/-- C5: `start_of_iso8601_week` is the input date minus its days-since-Monday
count `w` and `end_of_iso8601_week` is the input date plus `6 - w`; whenever
they are defined the start has weekday Monday (0 days since Monday), the end
has weekday Sunday (6 days since Monday), and the end is exactly 6 days
after the start. -/
theorem c5_iso8601_week_well_formed (dt : NaiveDate) (hv : dt.Valid) :
    (∀ s, start_of_iso8601_week dt = some s →
        s.Valid ∧ toRd s = toRd dt - num_days_from_monday dt ∧
          num_days_from_monday s = 0) ∧
    (∀ e, end_of_iso8601_week dt = some e →
        e.Valid ∧ toRd e = toRd dt + ((6 - num_days_from_monday dt : Nat) : Int) ∧
          num_days_from_monday e = 6) ∧
    (∀ s e, start_of_iso8601_week dt = some s → end_of_iso8601_week dt = some e →
        toRd e = toRd s + 6) := by
  refine ⟨fun s hs => start_of_iso8601_week_spec hv hs,
          fun e he => end_of_iso8601_week_spec hv he, ?_⟩
  intro s e hs he
  obtain ⟨-, hrs, -⟩ := start_of_iso8601_week_spec hv hs
  obtain ⟨-, hre, -⟩ := end_of_iso8601_week_spec hv he
  have hlt := num_days_from_monday_lt dt
  omega

/-- C5 witness: the theorem instantiated at 1996-02-23, whose week runs from
Monday 1996-02-19 to Sunday 1996-02-25. -/
theorem c5_iso8601_week_well_formed_witness :
    num_days_from_monday ⟨1996, 2, 19⟩ = 0 ∧ num_days_from_monday ⟨1996, 2, 25⟩ = 6 ∧
    toRd ⟨1996, 2, 25⟩ = toRd ⟨1996, 2, 19⟩ + 6 :=
  ⟨((c5_iso8601_week_well_formed ⟨1996, 2, 23⟩ (by decide)).1
      ⟨1996, 2, 19⟩ (by decide)).2.2,
   ((c5_iso8601_week_well_formed ⟨1996, 2, 23⟩ (by decide)).2.1
      ⟨1996, 2, 25⟩ (by decide)).2.2,
   (c5_iso8601_week_well_formed ⟨1996, 2, 23⟩ (by decide)).2.2
      ⟨1996, 2, 19⟩ ⟨1996, 2, 25⟩ (by decide) (by decide)⟩

/-- C7: the predecessor/successor week operations are anchored on the
current week's start `ws`: whenever their results are present, the
predecessor week start is `ws` minus 7 days, the predecessor week end is
`ws` minus 1 day, the successor week start is `ws` plus 7 days, and the
successor week end is the successor week start plus 6 days. -/
theorem c7_pred_succ_week_anchoring (dt ws : NaiveDate) (hv : dt.Valid)
    (hws : start_of_iso8601_week dt = some ws) :
    (∀ p, start_of_pred_iso8601_week dt = .ok (some p) →
        p.Valid ∧ toRd p = toRd ws - 7) ∧
    (∀ p, end_of_pred_iso8601_week dt = .ok (some p) →
        p.Valid ∧ toRd p = toRd ws - 1) ∧
    (∀ p, start_of_succ_iso8601_week dt = .ok (some p) →
        p.Valid ∧ toRd p = toRd ws + 7) ∧
    (∀ p q, start_of_succ_iso8601_week dt = .ok (some p) →
        end_of_succ_iso8601_week dt = .ok (some q) →
        q.Valid ∧ toRd q = toRd p + 6) := by
  obtain ⟨hvws, -, -⟩ := start_of_iso8601_week_spec hv hws
  refine ⟨?_, ?_, ?_, ?_⟩
  · intro p hp
    simp only [start_of_pred_iso8601_week, hws] at hp
    cases hcs : checkedSubDays ws 7 with
    | none =>
      simp only [subDaysAborting, hcs, Except.map] at hp
      exact Except.noConfusion hp
    | some r =>
      simp only [subDaysAborting, hcs, Except.map, Except.ok.injEq, Option.some.injEq] at hp
      subst hp
      obtain ⟨h1, h2⟩ := checkedSubDays_spec hvws hcs
      exact ⟨h1, by omega⟩
  · intro p hp
    simp only [end_of_pred_iso8601_week, hws] at hp
    cases hcs : checkedSubDays ws 1 with
    | none =>
      simp only [subDaysAborting, hcs, Except.map] at hp
      exact Except.noConfusion hp
    | some r =>
      simp only [subDaysAborting, hcs, Except.map, Except.ok.injEq, Option.some.injEq] at hp
      subst hp
      obtain ⟨h1, h2⟩ := checkedSubDays_spec hvws hcs
      exact ⟨h1, by omega⟩
  · intro p hp
    simp only [start_of_succ_iso8601_week, hws] at hp
    cases hca : checkedAddDays ws 7 with
    | none =>
      simp only [addDaysAborting, hca, Except.map] at hp
      exact Except.noConfusion hp
    | some r =>
      simp only [addDaysAborting, hca, Except.map, Except.ok.injEq, Option.some.injEq] at hp
      subst hp
      obtain ⟨h1, h2⟩ := checkedAddDays_spec hvws hca
      exact ⟨h1, by omega⟩
  · intro p q hp hq
    have hpv : p.Valid := by
      simp only [start_of_succ_iso8601_week, hws] at hp
      cases hca : checkedAddDays ws 7 with
      | none =>
        simp only [addDaysAborting, hca, Except.map] at hp
        exact Except.noConfusion hp
      | some r =>
        simp only [addDaysAborting, hca, Except.map, Except.ok.injEq, Option.some.injEq] at hp
        subst hp
        exact (checkedAddDays_spec hvws hca).1
    rw [end_of_succ_iso8601_week.eq_def, hp] at hq
    cases hca6 : checkedAddDays p 6 with
    | none =>
      simp only [addDaysAborting, hca6, Except.map] at hq
      exact Except.noConfusion hq
    | some t =>
      simp only [addDaysAborting, hca6, Except.map, Except.ok.injEq,
        Option.some.injEq] at hq
      subst hq
      obtain ⟨h1, h2⟩ := checkedAddDays_spec hpv hca6
      exact ⟨h1, by omega⟩

/-- C7 witness: the theorem instantiated at 1996-03-01, whose week start is
Monday 1996-02-26; the predecessor week runs 1996-02-19 to 1996-02-25 and
the successor week runs 1996-03-04 to 1996-03-10. -/
theorem c7_pred_succ_week_anchoring_witness :
    toRd ⟨1996, 2, 19⟩ = toRd ⟨1996, 2, 26⟩ - 7 ∧
    toRd ⟨1996, 2, 25⟩ = toRd ⟨1996, 2, 26⟩ - 1 ∧
    toRd ⟨1996, 3, 4⟩ = toRd ⟨1996, 2, 26⟩ + 7 ∧
    toRd ⟨1996, 3, 10⟩ = toRd ⟨1996, 3, 4⟩ + 6 :=
  ⟨((c7_pred_succ_week_anchoring ⟨1996, 3, 1⟩ ⟨1996, 2, 26⟩ (by decide) (by decide)).1
      ⟨1996, 2, 19⟩ (by decide)).2,
   ((c7_pred_succ_week_anchoring ⟨1996, 3, 1⟩ ⟨1996, 2, 26⟩ (by decide) (by decide)).2.1
      ⟨1996, 2, 25⟩ (by decide)).2,
   ((c7_pred_succ_week_anchoring ⟨1996, 3, 1⟩ ⟨1996, 2, 26⟩ (by decide) (by decide)).2.2.1
      ⟨1996, 3, 4⟩ (by decide)).2,
   ((c7_pred_succ_week_anchoring ⟨1996, 3, 1⟩ ⟨1996, 2, 26⟩ (by decide) (by decide)).2.2.2
      ⟨1996, 3, 4⟩ ⟨1996, 3, 10⟩ (by decide) (by decide)).2⟩

/-- C1: contrary to the never-abort policy, the week predecessor/successor
operations abort instead of returning an absent value at the edge of the
representable range: at the valid date -262144-01-07 (the first Monday on
or after the minimum representable date) the current week's start is the
date itself, yet `start_of_pred_iso8601_week` aborts via the panicking
subtraction operator rather than returning `none`; symmetrically
`start_of_succ_iso8601_week` aborts at the maximum representable date
262143-12-31. -/
theorem c1_pred_week_aborts_instead_of_none :
    (NaiveDate.mk (-262144) 1 7).Valid ∧
    start_of_iso8601_week ⟨-262144, 1, 7⟩ = some ⟨-262144, 1, 7⟩ ∧
    start_of_pred_iso8601_week ⟨-262144, 1, 7⟩ = .error () ∧
    (NaiveDate.mk 262143 12 31).Valid ∧
    start_of_succ_iso8601_week ⟨262143, 12, 31⟩ = .error () :=
  ⟨by decide, by decide, by decide, by decide, by decide⟩

end ChronoUtils
